import Mathlib

/-!
Verification of the `texcreate_v3_compiler_conf` crate (file `src/lib.rs`).

The crate defines a single configuration entity, `Compiler`, with five fields
(`compiler`, `proj_name`, `flags`, `clean`, `mode`), a TOML
serializer/deserializer for it, and a `compile` workflow that constructs a
subprocess invocation, optionally removes the `.aux`/`.log` artifacts from the
`out` directory, and prints a success message.

The development below is a shallow embedding:

* the pure data model (`Compiler`, `CompilerMode`) is translated directly;
* the `std::process::Command` builder chain is embedded as a `Command`
  structure recording the program and the argument vector in order;
* effectful operations (`from_file`, `compile`) become pure functions of an
  explicit environment (`Vfs` for file reads, `World` for the subprocess and
  deletion outcomes) returning a `PanicOr` value, which distinguishes a value
  returned normally from a Rust panic (`unwrap`/`expect`), together with an
  explicit trace of the side effects performed (which command was built, which
  files were passed to `remove_file`, whether the success message was printed);
* the third-party `toml` crate calls (`toml::to_string_pretty`,
  `toml::from_str::<Compiler>`) are modelled by an executable TOML
  renderer/parser for the value shapes this schema uses, written at the level
  of the library's observable contract (see the doc comments on
  `renderDocL` and `parseCompiler`).
-/

/-! ## Rust `io::Error` and panics -/

/-- Abstract stand-in for Rust's `std::io::Error` (the `tokio::io` error type).
Only its identity matters to the claims, never its content. -/
structure IoErr where
  msg : String
deriving DecidableEq

/-- Result of running Rust code that may panic: either a normally returned
value (`ret`) or a panic with the panic message (`panicked`).  `unwrap` /
`expect` on a failed value produce `panicked`. -/
inductive PanicOr (α : Type) where
  | ret : α → PanicOr α
  | panicked : String → PanicOr α
deriving DecidableEq

/-- Whether a `PanicOr` is a normally returned value. -/
def PanicOr.isRet : PanicOr α → Bool
  | .ret _ => true
  | .panicked _ => false

/-! ## The data model (`Compiler`, `CompilerMode` from `src/lib.rs`) -/

/-- Embeds `enum CompilerMode { Spawn, Output }`. -/
inductive CompilerMode where
  | Spawn : CompilerMode
  | Output : CompilerMode
deriving DecidableEq

/-- Embeds `struct Compiler` from `src/lib.rs`: the five configuration
fields in declaration order. -/
structure Compiler where
  compiler : String
  proj_name : String
  flags : List String
  clean : Bool
  mode : CompilerMode
deriving DecidableEq

/-- Embeds `Compiler::new`: default configuration for a project name. -/
def Compiler.new (proj_name : String) : Compiler :=
  { compiler := "pdflatex"
    proj_name := proj_name
    flags := []
    clean := true
    mode := CompilerMode.Output }

/-! ## `std::process::Command` builder -/

/-- A built (not yet run) process command: the program and its argument
vector, in the order the arguments were added. -/
structure Command where
  program : String
  argv : List String
deriving DecidableEq

/-- Embeds `Command::new(p)`: program `p`, no arguments yet. -/
def Command.new (p : String) : Command := ⟨p, []⟩

/-- Embeds `Command::arg`: appends one argument. -/
def Command.arg (c : Command) (a : String) : Command :=
  ⟨c.program, c.argv ++ [a]⟩

/-- Embeds `Command::args`: appends a sequence of arguments in order. -/
def Command.args (c : Command) (xs : List String) : Command :=
  ⟨c.program, c.argv ++ xs⟩

/-- The command built inside `Compiler::output` (lines 75–78 of
`src/lib.rs`): `Command::new(&self.compiler).arg("-output-directory=out")
.args(&self.flags).arg(&self.proj_name)`. -/
def Compiler.outputCmd (c : Compiler) : Command :=
  (((Command.new c.compiler).arg "-output-directory=out").args c.flags).arg
    c.proj_name

/-- The command built inside `Compiler::spawn` (lines 85–88 of
`src/lib.rs`); the source repeats the same builder chain. -/
def Compiler.spawnCmd (c : Compiler) : Command :=
  (((Command.new c.compiler).arg "-output-directory=out").args c.flags).arg
    c.proj_name

/-! ## The subprocess environment and the `compile` workflow -/

/-- Outcome of the operating system running the configured compiler binary:
it failed to start, it started but waiting for it failed at the OS level, or
it ran to completion with the given exit code.  A non-zero `code` is a normal
`exited` outcome: `std::process::Output`/`ExitStatus` report it as `Ok`. -/
inductive RunResult where
  | startFailure : RunResult
  | waitFailure : RunResult
  | exited : Int → RunResult
deriving DecidableEq

/-- The environment a single `compile()` call runs against: what the
subprocess does, and what `remove_file` returns for the aux and log files. -/
structure World where
  run : RunResult
  removeAux : Except IoErr Unit
  removeLog : Except IoErr Unit

/-- The observable side effects of one `compile()` call: the command that was
built for the subprocess, the paths passed to `remove_file` in order, and
whether the success message was printed. -/
structure CompileTrace where
  invoked : Command
  deletions : List String
  notified : Bool
deriving DecidableEq

/-- Embeds the body of `Compiler::output` past the builder: `.output().await
.expect("Couldn't compile LaTeX document")`.  `Command::output` returns `Err`
when the process cannot be started or awaited, and `Ok` (whatever the exit
status) when it ran; `expect` turns the `Err` into a panic and the exit
status is discarded by `let _ =`. -/
def Compiler.output_run (_c : Compiler) (r : RunResult) : PanicOr Unit :=
  match r with
  | .exited _ => .ret ()
  | .startFailure => .panicked "Couldn't compile LaTeX document"
  | .waitFailure => .panicked "Couldn't compile LaTeX document"

/-- Embeds the body of `Compiler::spawn` past the builder:
`.spawn().expect("Compiler failed to start").wait().await.expect("Couldn't
compile LaTeX document")`; the exit status is discarded by `let _ =`. -/
def Compiler.spawn_run (_c : Compiler) (r : RunResult) : PanicOr Unit :=
  match r with
  | .exited _ => .ret ()
  | .startFailure => .panicked "Compiler failed to start"
  | .waitFailure => .panicked "Couldn't compile LaTeX document"

/-- Embeds `PathBuf::join` for a non-empty relative right operand: a
separator is inserted unless the left side is empty or already ends in one. -/
def pathJoin (a b : String) : String :=
  if a = "" then b
  else if a.data.getLast? = some '/' then a ++ b
  else a ++ "/" ++ b

/-- The path passed to the first `remove_file` in `Compiler::compile`:
`PathBuf::from("out").join(format of proj_name with .aux)`. -/
def Compiler.auxPath (c : Compiler) : String :=
  pathJoin "out" (c.proj_name ++ ".aux")

/-- The path passed to the second `remove_file` in `Compiler::compile`:
`PathBuf::from("out").join(format of proj_name with .log)`. -/
def Compiler.logPath (c : Compiler) : String :=
  pathJoin "out" (c.proj_name ++ ".log")

/-- Embeds `Compiler::compile` (lines 103–121 of `src/lib.rs`) against an
explicit `World`.  The match on `mode` dispatches to `spawn`/`output`, whose
panics abort everything after them; then, when `clean` is set, the two
`remove_file` calls run in order, each `?` returning the `IoErr` early; the
success message is printed only after all of that succeeded. -/
def Compiler.compile (c : Compiler) (w : World) :
    PanicOr (Except IoErr Unit) × CompileTrace :=
  let cmd := match c.mode with
    | .Spawn => c.spawnCmd
    | .Output => c.outputCmd
  let ran := match c.mode with
    | .Spawn => c.spawn_run w.run
    | .Output => c.output_run w.run
  match ran with
  | .panicked m => (.panicked m, ⟨cmd, [], false⟩)
  | .ret _ =>
    if c.clean then
      match w.removeAux with
      | .error e => (.ret (.error e), ⟨cmd, [c.auxPath], false⟩)
      | .ok _ =>
        match w.removeLog with
        | .error e => (.ret (.error e), ⟨cmd, [c.auxPath, c.logPath], false⟩)
        | .ok _ => (.ret (.ok ()), ⟨cmd, [c.auxPath, c.logPath], true⟩)
    else (.ret (.ok ()), ⟨cmd, [], true⟩)

/-! ## Claims about construction and invocation -/

/-- Claim C8: for every project-name string `p`, `new p` returns a
configuration with compiler `"pdflatex"`, project name `p`, empty flags,
`clean = true` and `mode = Output`; it is a pure total function (no I/O, no
failure). -/
theorem claim_C8_new_defaults (p : String) :
    (Compiler.new p).compiler = "pdflatex" ∧
    (Compiler.new p).proj_name = p ∧
    (Compiler.new p).flags = [] ∧
    (Compiler.new p).clean = true ∧
    (Compiler.new p).mode = CompilerMode.Output :=
  ⟨rfl, rfl, rfl, rfl, rfl⟩

/-- Every branch of `compile` records the same built command, which is the
one `Compiler::output` builds (the chain in `Compiler::spawn` is identical
term by term). -/
theorem Compiler.compile_invoked (c : Compiler) (w : World) :
    (c.compile w).2.invoked = c.outputCmd := by
  rcases w with ⟨run, ra, rl⟩
  rcases c with ⟨comp, proj, fl, cl, mo⟩
  cases mo <;> cases run <;> cases cl <;> cases ra <;> cases rl <;>
    simp [Compiler.compile, Compiler.output_run, Compiler.spawn_run,
      Compiler.spawnCmd, Compiler.outputCmd]

/-- Claim C1: every `compile` call builds the invocation with program
`compiler` and arguments exactly `"-output-directory=out"`, then the stored
flags in order, then `proj_name` last; in particular for
compiler `"pdflatex"`, flags `["-interaction=nonstopmode"]` and project name
`"report"` the argument list is exactly
`["-output-directory=out", "-interaction=nonstopmode", "report"]`. -/
theorem claim_C1_invocation_arguments :
    (∀ (c : Compiler) (w : World),
      (c.compile w).2.invoked =
        ⟨c.compiler, "-output-directory=out" :: (c.flags ++ [c.proj_name])⟩) ∧
    (Compiler.mk "pdflatex" "report" ["-interaction=nonstopmode"] true
        CompilerMode.Output).outputCmd.argv =
      ["-output-directory=out", "-interaction=nonstopmode", "report"] := by
  refine ⟨fun c w => (c.compile_invoked w).trans ?_, rfl⟩
  simp [Compiler.outputCmd, Command.new, Command.arg, Command.args]

/-- Claim C10: the command built in `Compiler::spawn` is identical (same
program, same arguments in the same order) to the one built in
`Compiler::output`, for every configuration; moreover the command recorded by
`compile` does not depend on the `mode` field at all. -/
theorem claim_C10_mode_invariant_command :
    (∀ c : Compiler, c.spawnCmd = c.outputCmd) ∧
    (∀ (c : Compiler) (w : World) (m₁ m₂ : CompilerMode),
      ({ c with mode := m₁ }.compile w).2.invoked =
        ({ c with mode := m₂ }.compile w).2.invoked) :=
  ⟨fun _ => rfl, fun c w m₁ m₂ => by
    rw [Compiler.compile_invoked, Compiler.compile_invoked]
    rfl⟩

/-! ## Claims about the compile workflow's failure handling -/

/-- Claim C4 counterexample: with compiler exit code 1 (non-zero), `compile`
does not abort — it proceeds to both deletions, prints the success message
and returns `Ok`.  The claim states that any non-zero termination is fatal
and that neither cleanup nor the success notification occurs after it; here
is a concrete run where the exit code is 1 and both occur.  (The exit status
is discarded by `let _ =` in the source.) -/
theorem claim_C4_counterexample :
    (Compiler.mk "pdflatex" "report" [] true CompilerMode.Output).compile
        ⟨RunResult.exited 1, Except.ok (), Except.ok ()⟩ =
      (PanicOr.ret (Except.ok ()),
        ⟨⟨"pdflatex", ["-output-directory=out", "report"]⟩,
          ["out/report.aux", "out/report.log"], true⟩) := by
  rfl

/-- Claim C4 (amended): a failure to start the compiler subprocess (and an
OS-level failure to wait for it) is fatal — `compile` panics, performs no
deletion and never prints the success message; but the subprocess exit code
is ignored entirely: `compile` behaves identically for every exit code, so a
non-zero exit proceeds to cleanup and the success notification as if the
compile had succeeded. -/
theorem claim_C4_start_failure_fatal_exit_ignored :
    (∀ (c : Compiler) (w : World),
      w.run = RunResult.startFailure ∨ w.run = RunResult.waitFailure →
      (∃ m, (c.compile w).1 = PanicOr.panicked m) ∧
      (c.compile w).2.deletions = [] ∧ (c.compile w).2.notified = false) ∧
    (∀ (c : Compiler) (a b : Int) (ra rl : Except IoErr Unit),
      c.compile ⟨RunResult.exited a, ra, rl⟩ =
        c.compile ⟨RunResult.exited b, ra, rl⟩) := by
  constructor
  · intro c w h
    rcases w with ⟨run, ra, rl⟩
    rcases c with ⟨comp, proj, fl, cl, mo⟩
    rcases h with h | h <;> cases h <;> cases mo <;>
      simp [Compiler.compile, Compiler.output_run, Compiler.spawn_run]
  · intro c a b ra rl
    rcases c with ⟨comp, proj, fl, cl, mo⟩
    cases mo <;> rfl

/-- Claim C4 amended-theorem witness: the start-failure clause instantiated
at a concrete configuration and world. -/
theorem claim_C4_start_failure_fatal_exit_ignored_witness :
    (∃ m, ((Compiler.new "demo").compile
        ⟨RunResult.startFailure, Except.ok (), Except.ok ()⟩).1 =
      PanicOr.panicked m) ∧
    ((Compiler.new "demo").compile
        ⟨RunResult.startFailure, Except.ok (), Except.ok ()⟩).2.deletions = [] ∧
    ((Compiler.new "demo").compile
        ⟨RunResult.startFailure, Except.ok (), Except.ok ()⟩).2.notified =
      false :=
  claim_C4_start_failure_fatal_exit_ignored.1 (Compiler.new "demo")
    ⟨RunResult.startFailure, Except.ok (), Except.ok ()⟩ (Or.inl rfl)

/-- Claim C5: with `clean = true`, after the subprocess ran, a failure of
either `remove_file` makes `compile` return that I/O error: the log deletion
is not attempted after a failed aux deletion, and the success message is
never printed. -/
theorem claim_C5_cleanup_failure_aborts (c : Compiler) (w : World)
    (code : Int) (hclean : c.clean = true)
    (hrun : w.run = RunResult.exited code) :
    (∀ e : IoErr, w.removeAux = Except.error e →
      c.compile w =
        (PanicOr.ret (Except.error e), ⟨c.outputCmd, [c.auxPath], false⟩)) ∧
    (∀ (e : IoErr) (u : Unit), w.removeAux = Except.ok u →
      w.removeLog = Except.error e →
      c.compile w =
        (PanicOr.ret (Except.error e),
          ⟨c.outputCmd, [c.auxPath, c.logPath], false⟩)) := by
  rcases w with ⟨run, ra, rl⟩
  rcases c with ⟨comp, proj, fl, cl, mo⟩
  cases hrun
  cases hclean
  constructor
  · rintro e rfl
    cases mo <;>
      simp [Compiler.compile, Compiler.output_run, Compiler.spawn_run,
        Compiler.spawnCmd, Compiler.outputCmd]
  · rintro e u rfl rfl
    cases mo <;>
      simp [Compiler.compile, Compiler.output_run, Compiler.spawn_run,
        Compiler.spawnCmd, Compiler.outputCmd]

/-- Claim C5 witness: the aux-deletion-failure clause instantiated at a
concrete configuration and world. -/
theorem claim_C5_cleanup_failure_aborts_witness :
    (Compiler.new "demo").compile
        ⟨RunResult.exited 0, Except.error ⟨"missing"⟩, Except.ok ()⟩ =
      (PanicOr.ret (Except.error ⟨"missing"⟩),
        ⟨(Compiler.new "demo").outputCmd, [(Compiler.new "demo").auxPath],
          false⟩) :=
  (claim_C5_cleanup_failure_aborts (Compiler.new "demo")
      ⟨RunResult.exited 0, Except.error ⟨"missing"⟩, Except.ok ()⟩ 0 rfl
      rfl).1 ⟨"missing"⟩ rfl

/-- Claim C6 counterexample: a run with `clean = true` in which the aux
deletion fails — the log deletion is then never attempted, so it is not true
that `clean = true` implies both deletions are attempted.  Concretely the
list of paths passed to `remove_file` is `["out/report.aux"]` alone, although
`clean = true`. -/
theorem claim_C6_counterexample :
    (Compiler.mk "pdflatex" "report" [] true CompilerMode.Output).clean =
        true ∧
    (((Compiler.mk "pdflatex" "report" [] true CompilerMode.Output).compile
          ⟨RunResult.exited 0, Except.error ⟨"missing"⟩,
            Except.ok ()⟩).2).deletions = ["out/report.aux"] := by
  exact ⟨rfl, rfl⟩

/-- Claim C6 (amended): after the subprocess ran to completion, some deletion
is attempted iff `clean = true`; with `clean = false` nothing is passed to
`remove_file` (so the `out` directory is left untouched by `compile`), and
with `clean = true` the aux deletion is always attempted while the log
deletion is additionally attempted exactly when the aux deletion succeeded. -/
theorem claim_C6_clean_gates_deletions (c : Compiler) (w : World) (code : Int)
    (hrun : w.run = RunResult.exited code) :
    ((c.compile w).2.deletions ≠ [] ↔ c.clean = true) ∧
    (c.clean = true →
      (c.compile w).2.deletions =
        match w.removeAux with
        | Except.ok _ => [c.auxPath, c.logPath]
        | Except.error _ => [c.auxPath]) := by
  rcases w with ⟨run, ra, rl⟩
  rcases c with ⟨comp, proj, fl, cl, mo⟩
  cases hrun
  cases mo <;> cases cl <;> cases ra <;> cases rl <;>
    simp [Compiler.compile, Compiler.output_run, Compiler.spawn_run]

/-- Claim C6 amended-theorem witness: instantiated at a concrete
configuration with `clean = true` and both deletions succeeding. -/
theorem claim_C6_clean_gates_deletions_witness :
    (((Compiler.new "demo").compile
          ⟨RunResult.exited 0, Except.ok (), Except.ok ()⟩).2.deletions ≠ [] ↔
      (Compiler.new "demo").clean = true) ∧
    ((Compiler.new "demo").clean = true →
      ((Compiler.new "demo").compile
            ⟨RunResult.exited 0, Except.ok (), Except.ok ()⟩).2.deletions =
        match (Except.ok () : Except IoErr Unit) with
        | Except.ok _ => [(Compiler.new "demo").auxPath,
            (Compiler.new "demo").logPath]
        | Except.error _ => [(Compiler.new "demo").auxPath]) :=
  claim_C6_clean_gates_deletions (Compiler.new "demo")
    ⟨RunResult.exited 0, Except.ok (), Except.ok ()⟩ 0 rfl

/-! ## TOML values and the serializer model

`Compiler::to_string` calls `toml::to_string_pretty(&self)`, and
`Compiler::from_file` calls `toml::from_str::<Compiler>`.  The `toml` crate
is third-party code, so it is modelled here at the level of its observable
contract for the value shapes this fixed schema can produce: a flat table of
strings, booleans and arrays of strings, one `key = value` line per field in
struct declaration order, strings quoted with TOML basic-string escaping.
(The crate's pretty printer may choose literal `'...'` quoting and multi-line
array layout; both spellings denote the same value and are accepted by the
parser model below, so the serialize-then-parse contract is unaffected.)  The
serializer is partial — `toml` serialization fails on shapes such as a table
in value position — which is what makes the `unwrap` in the source a real
branch to reason about. -/

/-- A TOML value of the kinds this schema can mention. -/
inductive TomlValue where
  | str : String → TomlValue
  | bool : Bool → TomlValue
  | arr : List TomlValue → TomlValue
  | table : List (String × TomlValue) → TomlValue

/-- Uppercase hexadecimal digit character for `n < 16`. -/
def hexDigitChar (n : Nat) : Char :=
  if n < 10 then Char.ofNat (48 + n) else Char.ofNat (55 + n)

/-- Four-digit fixed-width hexadecimal rendering, as in a TOML `\u` escape. -/
def hex4 (n : Nat) : List Char :=
  [hexDigitChar (n / 4096 % 16), hexDigitChar (n / 256 % 16),
    hexDigitChar (n / 16 % 16), hexDigitChar (n % 16)]

/-- Control characters, which TOML basic strings must escape (everything
below space, and delete). -/
def isCtl (c : Char) : Bool := c.toNat < 32 || c.toNat == 127

/-- TOML basic-string escaping of one character. -/
def escapeChar (c : Char) : List Char :=
  if c = '"' then ['\\', '"']
  else if c = '\\' then ['\\', '\\']
  else if c = '\x08' then ['\\', 'b']
  else if c = '\t' then ['\\', 't']
  else if c = '\n' then ['\\', 'n']
  else if c = '\x0c' then ['\\', 'f']
  else if c = '\r' then ['\\', 'r']
  else if isCtl c then '\\' :: 'u' :: hex4 c.toNat
  else [c]

/-- TOML basic-string escaping of a character sequence. -/
def escList : List Char → List Char
  | [] => []
  | c :: cs => escapeChar c ++ escList cs

/-- A rendered TOML basic string: quote, escaped contents, quote. -/
def emitStringL (s : String) : List Char := '"' :: (escList s.data ++ ['"'])

/-- Comma-space separated concatenation, as between array elements. -/
def joinComma : List (List Char) → List Char
  | [] => []
  | [r] => r
  | r :: rs => r ++ ',' :: ' ' :: joinComma rs

mutual

/-- Renders one TOML value, or fails: a table is not renderable in value
position (the `toml` serializer reports an error there, which is the failure
the `unwrap` in `Compiler::to_string` would turn into a panic). -/
def renderValueL : TomlValue → Option (List Char)
  | .str s => some (emitStringL s)
  | .bool true => some ("true".data)
  | .bool false => some ("false".data)
  | .arr xs =>
    match renderArrL xs with
    | none => none
    | some rs => some ('[' :: (joinComma rs ++ [']']))
  | .table _ => none

/-- Renders the elements of a TOML array, failing if any element fails. -/
def renderArrL : List TomlValue → Option (List (List Char))
  | [] => some []
  | v :: vs =>
    match renderValueL v, renderArrL vs with
    | some r, some rs => some (r :: rs)
    | _, _ => none

end

/-- Renders top-level `key = value` lines, one per entry, in order. -/
def renderEntriesL : List (String × TomlValue) → Option (List Char)
  | [] => some []
  | (k, v) :: kvs =>
    match renderValueL v, renderEntriesL kvs with
    | some r, some rest => some (k.data ++ ' ' :: '=' :: ' ' :: (r ++ '\n' :: rest))
    | _, _ => none

/-- Renders a whole TOML document: the top level must be a table. -/
def renderDocL : TomlValue → Option (List Char)
  | .table kvs => renderEntriesL kvs
  | _ => none

/-- The tag under which serde serializes a `CompilerMode` unit variant: the
variant's name as a string. -/
def CompilerMode.tag : CompilerMode → String
  | .Spawn => "Spawn"
  | .Output => "Output"

/-- The serde encoding of a `Compiler` value as a TOML table: the five
fields in struct declaration order. -/
def encodeCompiler (c : Compiler) : TomlValue :=
  .table
    [("compiler", .str c.compiler), ("proj_name", .str c.proj_name),
      ("flags", .arr (c.flags.map .str)), ("clean", .bool c.clean),
      ("mode", .str c.mode.tag)]

/-- Embeds `toml::to_string_pretty(&self)` from `Compiler::to_string`. -/
def Compiler.to_string_checked (c : Compiler) : Option String :=
  (renderDocL (encodeCompiler c)).map String.mk

/-- Embeds `Compiler::to_string`: `toml::to_string_pretty(&self).unwrap()` —
a serialization failure would be a panic, not a returned error. -/
def Compiler.to_string (c : Compiler) : PanicOr String :=
  match c.to_string_checked with
  | some s => .ret s
  | none => .panicked "called Result::unwrap on an Err value"

/-- A rendered TOML array of strings. -/
def emitFlagsL (xs : List String) : List Char :=
  '[' :: (joinComma (xs.map emitStringL) ++ [']'])

/-- The serialized text of a configuration, written out in closed form: the
five `key = value` lines in struct field order, each newline-terminated. -/
def serializedFormL (c : Compiler) : List Char :=
  "compiler = ".data ++ emitStringL c.compiler ++ '\n' ::
    ("proj_name = ".data ++ emitStringL c.proj_name ++ '\n' ::
      ("flags = ".data ++ emitFlagsL c.flags ++ '\n' ::
        ("clean = ".data ++ (if c.clean then "true".data else "false".data) ++ '\n' ::
          ("mode = ".data ++ emitStringL c.mode.tag ++ ['\n']))))

/-- String arrays always render, elementwise. -/
theorem renderArrL_map_str (xs : List String) :
    renderArrL (xs.map TomlValue.str) = some (xs.map emitStringL) := by
  induction xs with
  | nil => rfl
  | cons x xs ih => simp [renderArrL, renderValueL, ih]

/-- The serializer never fails on a `Compiler` encoding, and produces
exactly the closed-form text. -/
theorem renderDocL_encodeCompiler (c : Compiler) :
    renderDocL (encodeCompiler c) = some (serializedFormL c) := by
  cases hcl : c.clean <;>
    simp [renderDocL, encodeCompiler, renderEntriesL, renderValueL,
      renderArrL_map_str, serializedFormL, emitFlagsL, hcl, CompilerMode.tag]

/-- Claim C9: serialization is a total deterministic function of the
configuration: for every `Compiler` value, `to_string` returns (never
panics — the `unwrap` branch is unreachable) the closed-form text
`serializedFormL`, whose field order is fixed, so equal configurations give
equal strings. -/
theorem claim_C9_to_string_total :
    ∀ c : Compiler, c.to_string = PanicOr.ret (String.mk (serializedFormL c)) := by
  intro c
  simp [Compiler.to_string, Compiler.to_string_checked, renderDocL_encodeCompiler]

/-! ## The TOML parser model

`parseCompiler` models `toml::from_str::<Compiler>(s)` — the TOML document
parse and the serde decode composed, which is exactly what
`Compiler::from_file` calls.  Scope of the model, matching what this schema
can meet: one `key = value` entry per line with bare keys, basic and literal
single-line strings, booleans, and single-line arrays of scalars; `#`
comments and blank lines are skipped; duplicate keys are an error (TOML
rejects a key defined twice); unknown keys are ignored (serde's default for
a derived `Deserialize`); a missing field, a field of the wrong type, or an
unrecognized `mode` tag is an error (serde rejects them).  Value forms this
schema cannot produce and no claim touches (numbers, dates, multi-line
strings and arrays, nested tables) are rejected rather than modelled; the
serde decode for this schema rejects every one of those value shapes anyway,
so a rejection is the faithful observable outcome wherever such a value
could reach a field of `Compiler`.

The recursive readers run on explicit fuel so that each recursive definition
stays structural; every step consumes at least one input character, so the
`length + 1` fuel the entry points supply can never be the reason an input
is rejected. -/

/-- Drops leading spaces and horizontal tabs. -/
def skipSpaces : List Char → List Char
  | [] => []
  | c :: r => if c = ' ' ∨ c = '\t' then skipSpaces r else c :: r

/-- Characters of a TOML bare key. -/
def isKeyChar (c : Char) : Bool := c.isAlphanum || c == '_' || c == '-'

/-- Value of one hexadecimal digit character, either case. -/
def hexVal (c : Char) : Option Nat :=
  if '0' ≤ c ∧ c ≤ '9' then some (c.toNat - 48)
  else if 'A' ≤ c ∧ c ≤ 'F' then some (c.toNat - 55)
  else if 'a' ≤ c ∧ c ≤ 'f' then some (c.toNat - 87)
  else none

/-- Value of a four-hex-digit group. -/
def hex4Val (a b c d : Char) : Option Nat :=
  match hexVal a, hexVal b, hexVal c, hexVal d with
  | some va, some vb, some vc, some vd =>
    some (va * 4096 + vb * 256 + vc * 16 + vd)
  | _, _, _, _ => none

/-- The character a single-character TOML escape denotes. -/
def escDecode (e : Char) : Option Char :=
  if e = 'b' then some '\x08'
  else if e = 't' then some '\t'
  else if e = 'n' then some '\n'
  else if e = 'f' then some '\x0c'
  else if e = 'r' then some '\r'
  else if e = '"' then some '"'
  else if e = '\\' then some '\\'
  else none

/-- Unicode scalar values: what a TOML `\u`/`\U` escape may denote. -/
def validCp (n : Nat) : Bool :=
  n < 55296 || (57344 ≤ n && n < 1114112)

/-- Prepends a character to the parsed-contents half of a reader result. -/
def consFst (c : Char) :
    Option (List Char × List Char) → Option (List Char × List Char)
  | none => none
  | some (s, r) => some (c :: s, r)

/-- One step of reading a basic-string body: the closing quote ends it, an
escape or a plain character contributes one decoded character, anything else
(a bare control character, a bad escape, end of input) is an error. -/
inductive StrStep where
  | done : List Char → StrStep
  | take : Char → List Char → StrStep
  | fail : StrStep

/-- Reads one item of a basic-string body after the opening quote: TOML
escapes (`\b \t \n \f \r \" \\`, `\u` with four hex digits, `\U` with
eight, required to denote a Unicode scalar value), or one plain character,
which may not be an unescaped control character other than tab. -/
def basicStep : List Char → StrStep
  | [] => .fail
  | c :: r =>
    if c = '"' then .done r
    else if c = '\\' then
      match r with
      | [] => .fail
      | e :: r2 =>
        match escDecode e with
        | some d => .take d r2
        | none =>
          if e = 'u' then
            match r2 with
            | a :: b :: c2 :: d :: r3 =>
              match hex4Val a b c2 d with
              | some n => if validCp n then .take (Char.ofNat n) r3 else .fail
              | none => .fail
            | _ => .fail
          else if e = 'U' then
            match r2 with
            | a :: b :: c2 :: d :: a2 :: b2 :: c3 :: d2 :: r3 =>
              match hex4Val a b c2 d, hex4Val a2 b2 c3 d2 with
              | some hi, some lo =>
                if validCp (hi * 65536 + lo) then
                  .take (Char.ofNat (hi * 65536 + lo)) r3
                else .fail
              | _, _ => .fail
            | _ => .fail
          else .fail
    else if c = '\t' || !isCtl c then .take c r
    else .fail

/-- Reads a basic-string body by iterating `basicStep`: the decoded contents
up to the closing quote, and the remainder after it. -/
def parseBasicGo : Nat → List Char → Option (List Char × List Char)
  | 0, _ => none
  | fuel + 1, input =>
    match basicStep input with
    | .done r => some ([], r)
    | .take c rest => consFst c (parseBasicGo fuel rest)
    | .fail => none

/-- Reads the body of a basic string after its opening quote. -/
def parseBasicAux (input : List Char) : Option (List Char × List Char) :=
  parseBasicGo (input.length + 1) input

/-- One step of reading a literal-string body: the closing apostrophe ends
it; no escapes exist; control characters other than tab are not allowed. -/
def literalStep : List Char → StrStep
  | [] => .fail
  | c :: r =>
    if c = '\'' then .done r
    else if c = '\t' || !isCtl c then .take c r
    else .fail

/-- Reads a literal-string body by iterating `literalStep`. -/
def parseLiteralGo : Nat → List Char → Option (List Char × List Char)
  | 0, _ => none
  | fuel + 1, input =>
    match literalStep input with
    | .done r => some ([], r)
    | .take c rest => consFst c (parseLiteralGo fuel rest)
    | .fail => none

/-- Reads the body of a literal string after its opening apostrophe. -/
def parseLiteralAux (input : List Char) : Option (List Char × List Char) :=
  parseLiteralGo (input.length + 1) input

/-- Reads one scalar TOML value: a string (basic or literal) or a boolean. -/
def parseScalarV (input : List Char) : Option (TomlValue × List Char) :=
  match input with
  | [] => none
  | c :: r =>
    if c = '"' then
      (parseBasicAux r).map (fun p => (TomlValue.str (String.mk p.1), p.2))
    else if c = '\'' then
      (parseLiteralAux r).map (fun p => (TomlValue.str (String.mk p.1), p.2))
    else if c = 't' then
      match r with
      | x1 :: x2 :: x3 :: r2 =>
        if x1 = 'r' ∧ x2 = 'u' ∧ x3 = 'e' then some (TomlValue.bool true, r2)
        else none
      | _ => none
    else if c = 'f' then
      match r with
      | x1 :: x2 :: x3 :: x4 :: r2 =>
        if x1 = 'a' ∧ x2 = 'l' ∧ x3 = 's' ∧ x4 = 'e' then
          some (TomlValue.bool false, r2)
        else none
      | _ => none
    else none

/-- What follows a parsed array element: the closing bracket (possibly after
a trailing comma), a comma followed by another element, or an error. -/
inductive ElemsNext where
  | last : List Char → ElemsNext
  | more : List Char → ElemsNext
  | bad : ElemsNext

/-- Reads the separator after an array element. -/
def elemsSep (rest : List Char) : ElemsNext :=
  let l := skipSpaces rest
  if l.head? = some ',' then
    let l2 := skipSpaces l.tail
    if l2.head? = some ']' then .last l2.tail
    else if l2.isEmpty then .bad
    else .more l2
  else if l.head? = some ']' then .last l.tail
  else .bad

/-- Reads the elements of an array after its opening bracket: scalars
separated by commas, optional trailing comma, up to the closing bracket. -/
def parseElems : Nat → List Char → Option (List TomlValue × List Char)
  | 0, _ => none
  | fuel + 1, input =>
    let l := skipSpaces input
    if l.head? = some ']' then some ([], l.tail)
    else
      match parseScalarV l with
      | none => none
      | some (v, rest) =>
        match elemsSep rest with
        | .bad => none
        | .last r2 => some ([v], r2)
        | .more r2 => (parseElems fuel r2).map (fun p => (v :: p.1, p.2))

/-- Reads one TOML value: an array or a scalar. -/
def parseValue (input : List Char) : Option (TomlValue × List Char) :=
  match input with
  | [] => none
  | c :: r =>
    if c = '[' then (parseElems (r.length + 1) r).map (fun p => (TomlValue.arr p.1, p.2))
    else parseScalarV (c :: r)

/-- Accepts a parsed value only if the rest of its line is blank or a
comment. -/
def finishVal : Option (TomlValue × List Char) → Option TomlValue
  | none => none
  | some (v, rest) =>
    match skipSpaces rest with
    | [] => some v
    | c :: _ => if c = '#' then some v else none

/-- Reads one line: `some none` for a blank or comment line, `some (some
(key, value))` for a `key = value` entry, `none` for a malformed line. -/
def parseLine (l : List Char) : Option (Option (String × TomlValue)) :=
  let l2 := skipSpaces l
  if l2.isEmpty then some none
  else if l2.head? = some '#' then some none
  else
    let key := l2.takeWhile isKeyChar
    if key.isEmpty then none
    else
      let r := skipSpaces (l2.dropWhile isKeyChar)
      if r.head? = some '=' then
        match finishVal (parseValue (skipSpaces r.tail)) with
        | some v => some (some (String.mk key, v))
        | none => none
      else none

/-- Splits a character sequence at newlines.  A trailing newline contributes
a final empty line, which parses as blank. -/
def splitLines : List Char → List (List Char)
  | [] => [[]]
  | c :: r =>
    if c = '\n' then [] :: splitLines r
    else
      match splitLines r with
      | [] => [[c]]
      | l :: ls => (c :: l) :: ls

/-- The fields collected so far while reading a document, each initially
absent (serde errors at the end on any still-missing field). -/
structure PartialConfig where
  compiler : Option String := none
  proj_name : Option String := none
  flags : Option (List String) := none
  clean : Option Bool := none
  mode : Option CompilerMode := none

/-- Decodes an array's elements as a list of strings, as serde does for
`Vec<String>`: any non-string element is a type error. -/
def strListOfToml : List TomlValue → Option (List String)
  | [] => some []
  | TomlValue.str s :: vs => (strListOfToml vs).map (fun l => s :: l)
  | _ => none

/-- Decodes a `CompilerMode` as serde does for a unit-variant enum: exactly
the case-sensitive variant name as a string; anything else is an error, never
a default. -/
def decodeMode : TomlValue → Option CompilerMode
  | TomlValue.str s =>
    if s = "Spawn" then some CompilerMode.Spawn
    else if s = "Output" then some CompilerMode.Output
    else none
  | _ => none

/-- Records one parsed `key = value` entry: a known key must not be already
set (TOML rejects duplicate keys) and its value must decode at the field's
type; an unknown key is skipped (serde's default). -/
def updatePart (p : PartialConfig) (k : String) (v : TomlValue) :
    Option PartialConfig :=
  if k = "compiler" then
    match p.compiler, v with
    | none, TomlValue.str s => some { p with compiler := some s }
    | _, _ => none
  else if k = "proj_name" then
    match p.proj_name, v with
    | none, TomlValue.str s => some { p with proj_name := some s }
    | _, _ => none
  else if k = "flags" then
    match p.flags, v with
    | none, TomlValue.arr xs =>
      (strListOfToml xs).map (fun l => { p with flags := some l })
    | _, _ => none
  else if k = "clean" then
    match p.clean, v with
    | none, TomlValue.bool b => some { p with clean := some b }
    | _, _ => none
  else if k = "mode" then
    match p.mode, v with
    | none, v2 => (decodeMode v2).map (fun m => { p with mode := some m })
    | _, _ => none
  else some p

/-- A document decodes to a `Compiler` exactly when all five fields were
seen. -/
def PartialConfig.assemble (p : PartialConfig) : Option Compiler :=
  match p.compiler, p.proj_name, p.flags, p.clean, p.mode with
  | some c, some pn, some fl, some cl, some m => some ⟨c, pn, fl, cl, m⟩
  | _, _, _, _, _ => none

/-- Folds the parsed lines into the collected fields. -/
def parseLinesGo : List (List Char) → PartialConfig → Option Compiler
  | [], p => p.assemble
  | l :: ls, p =>
    match parseLine l with
    | none => none
    | some none => parseLinesGo ls p
    | some (some kv) =>
      match updatePart p kv.1 kv.2 with
      | none => none
      | some p2 => parseLinesGo ls p2

/-- Models `toml::from_str::<Compiler>(s)`: `some` on success, `none` on any
parse or decode error (see the section comment for the model's scope). -/
def parseCompiler (s : String) : Option Compiler :=
  parseLinesGo (splitLines s.data) {}

/-! ## Serialize-then-parse: the string level -/

/-- Hex digits render and read back. -/
theorem hexVal_hexDigitChar : ∀ n < 16, hexVal (hexDigitChar n) = some n := by
  decide

/-- What `isCtl` says numerically. -/
theorem isCtl_toNat (c : Char) (h : isCtl c = true) :
    c.toNat < 32 ∨ c.toNat = 127 := by
  simp [isCtl] at h
  omega

/-- `skipSpaces` does not move past a character that is not a space or a
tab. -/
theorem skipSpaces_cons_of (c : Char) (r : List Char)
    (h : ¬(c = ' ' ∨ c = '\t')) : skipSpaces (c :: r) = c :: r := by
  rw [skipSpaces.eq_def]
  simp [h]

/-- `skipSpaces` drops a leading space. -/
theorem skipSpaces_space (r : List Char) : skipSpaces (' ' :: r) = skipSpaces r := by
  rw [skipSpaces.eq_def]
  simp

/-- `skipSpaces` of nothing is nothing. -/
theorem skipSpaces_nil : skipSpaces [] = [] := by
  rw [skipSpaces.eq_def]

/-- A four-digit group renders and reads back below `2 ^ 16`. -/
theorem hex4Val_hexDigitChar (n : Nat) (h : n < 65536) :
    hex4Val (hexDigitChar (n / 4096 % 16)) (hexDigitChar (n / 256 % 16))
      (hexDigitChar (n / 16 % 16)) (hexDigitChar (n % 16)) = some n := by
  unfold hex4Val
  rw [hexVal_hexDigitChar (n / 4096 % 16) (by omega),
    hexVal_hexDigitChar (n / 256 % 16) (by omega),
    hexVal_hexDigitChar (n / 16 % 16) (by omega),
    hexVal_hexDigitChar (n % 16) (by omega)]
  simp only [Option.some.injEq]
  omega

/-- Reading one escaped or plain character after `escapeChar` undoes it,
whatever follows. -/
theorem basicStep_escapeChar (c : Char) (t : List Char) :
    basicStep (escapeChar c ++ t) = StrStep.take c t := by
  unfold escapeChar
  split_ifs with h1 h2 h3 h4 h5 h6 h7 h8
  · subst h1; rfl
  · subst h2; rfl
  · subst h3; rfl
  · subst h4; rfl
  · subst h5; rfl
  · subst h6; rfl
  · subst h7; rfl
  · have hlt := isCtl_toNat c h8
    have hb : c.toNat < 65536 := by omega
    have hx := hex4Val_hexDigitChar c.toNat hb
    have hv : validCp c.toNat = true := by
      simp [validCp]
      omega
    simp only [hex4, List.cons_append, List.nil_append]
    unfold basicStep
    simp [escDecode, hx, hv, Char.ofNat_toNat]
  · have hc : isCtl c = false := by
      cases h : isCtl c
      · rfl
      · exact absurd h h8
    simp only [List.cons_append, List.nil_append]
    unfold basicStep
    simp [h1, h2, hc]

/-- Reading a whole escaped body undoes `escList`: the contents come back
verbatim, with the input after the closing quote untouched, for any
sufficient fuel. -/
theorem parseBasicGo_escList (xs : List Char) :
    ∀ (fuel : Nat) (t : List Char), xs.length < fuel →
      parseBasicGo fuel (escList xs ++ '"' :: t) = some (xs, t) := by
  induction xs with
  | nil =>
    intro fuel t h
    obtain ⟨f, rfl⟩ : ∃ f, fuel = f + 1 := ⟨fuel - 1, by omega⟩
    rw [escList, List.nil_append, parseBasicGo]
    rfl
  | cons c cs ih =>
    intro fuel t h
    obtain ⟨f, rfl⟩ : ∃ f, fuel = f + 1 := ⟨fuel - 1, by omega⟩
    rw [escList, List.append_assoc, parseBasicGo, basicStep_escapeChar]
    show consFst c (parseBasicGo f (escList cs ++ '"' :: t)) = some (c :: cs, t)
    rw [ih f t (by simpa using Nat.lt_of_succ_lt_succ h)]
    rfl

/-- Escaping never shortens a string. -/
theorem escList_length (xs : List Char) : xs.length ≤ (escList xs).length := by
  induction xs with
  | nil => simp [escList]
  | cons c cs ih =>
    rw [escList]
    have : 1 ≤ (escapeChar c).length := by
      unfold escapeChar
      split_ifs <;> simp [hex4]
    simp only [List.length_append, List.length_cons]
    omega

/-- A rendered basic string reads back as itself through `parseBasicAux`. -/
theorem parseBasicAux_escList (xs t : List Char) :
    parseBasicAux (escList xs ++ '"' :: t) = some (xs, t) := by
  have h := escList_length xs
  rw [parseBasicAux, parseBasicGo_escList]
  simp only [List.length_append, List.length_cons]
  omega

/-- A rendered basic string parses back as that string value. -/
theorem parseScalarV_emitStringL (s : String) (rest : List Char) :
    parseScalarV (emitStringL s ++ rest) = some (TomlValue.str s, rest) := by
  show parseScalarV ('"' :: ((escList s.data ++ ['"']) ++ rest)) = _
  rw [List.append_assoc]
  show (parseBasicAux (escList s.data ++ '"' :: rest)).map _ = _
  rw [parseBasicAux_escList]
  rfl

/-- A nonempty rendered element list starts with an opening quote. -/
theorem joinComma_emit_head (y : String) (rs : List (List Char)) :
    ∃ z, joinComma (emitStringL y :: rs) = '"' :: z := by
  cases rs with
  | nil =>
    refine ⟨escList y.data ++ ['"'], ?_⟩
    rw [joinComma]
    rfl
  | cons r rs =>
    refine ⟨(escList y.data ++ ['"']) ++ ',' :: ' ' :: joinComma (r :: rs), ?_⟩
    rw [joinComma]
    rfl
    simp

/-- Rendering an element list costs at least one character per element,
bar one. -/
theorem joinComma_emit_length (xs : List String) :
    xs.length ≤ (joinComma (xs.map emitStringL)).length + 1 := by
  induction xs with
  | nil => simp
  | cons x xs ih =>
    cases xs with
    | nil => simp [joinComma, emitStringL]
    | cons y ys =>
      simp only [List.map_cons, joinComma] at ih ⊢
      simp only [List.length_append, List.length_cons, List.length_map,
        emitStringL] at ih ⊢
      omega

/-- A rendered string-array body reads back elementwise, for any sufficient
fuel. -/
theorem parseElems_emit :
    ∀ (xs : List String) (fuel : Nat) (t : List Char), xs.length < fuel →
      parseElems fuel (joinComma (xs.map emitStringL) ++ ']' :: t) =
        some (xs.map TomlValue.str, t) := by
  intro xs
  induction xs with
  | nil =>
    intro fuel t h
    obtain ⟨f, rfl⟩ : ∃ f, fuel = f + 1 := ⟨fuel - 1, by omega⟩
    simp only [List.map_nil, joinComma, List.nil_append]
    rw [parseElems]
    rw [skipSpaces_cons_of ']' t (by decide)]
    simp
  | cons x xs ih =>
    intro fuel t h
    obtain ⟨f, rfl⟩ : ∃ f, fuel = f + 1 := ⟨fuel - 1, by omega⟩
    cases xs with
    | nil =>
      simp only [List.map_cons, List.map_nil, joinComma]
      rw [parseElems]
      have hs : skipSpaces (emitStringL x ++ ']' :: t) =
          emitStringL x ++ ']' :: t :=
        skipSpaces_cons_of '"' ((escList x.data ++ ['"']) ++ (']' :: t))
          (by decide)
      rw [hs]
      have hh : (emitStringL x ++ ']' :: t).head? = some '"' := rfl
      rw [hh]
      have he : elemsSep (']' :: t) = ElemsNext.last t := by
        unfold elemsSep
        rw [skipSpaces_cons_of ']' t (by decide)]
        rfl
      simp only [parseScalarV_emitStringL, he]
      simp
    | cons y ys =>
      simp only [List.map_cons, joinComma]
      simp only [List.append_assoc, List.cons_append]
      rw [parseElems]
      have hs : skipSpaces (emitStringL x ++ ',' :: ' ' ::
            (joinComma (emitStringL y :: ys.map emitStringL) ++ ']' :: t)) =
          emitStringL x ++ ',' :: ' ' ::
            (joinComma (emitStringL y :: ys.map emitStringL) ++ ']' :: t) :=
        skipSpaces_cons_of '"' _ (by decide)
      rw [hs]
      have hh : (emitStringL x ++ ',' :: ' ' ::
            (joinComma (emitStringL y :: ys.map emitStringL) ++ ']' :: t)).head? =
          some '"' := rfl
      rw [hh]
      obtain ⟨z, hz⟩ := joinComma_emit_head y (ys.map emitStringL)
      have he : elemsSep (',' :: ' ' ::
            (joinComma (emitStringL y :: ys.map emitStringL) ++ ']' :: t)) =
          ElemsNext.more
            (joinComma (emitStringL y :: ys.map emitStringL) ++ ']' :: t) := by
        unfold elemsSep
        rw [skipSpaces_cons_of ',' _ (by decide)]
        rw [hz]
        simp only [List.cons_append, List.tail_cons, skipSpaces_space]
        rw [skipSpaces_cons_of '"' _ (by decide)]
        rfl
      simp only [parseScalarV_emitStringL, he]
      have ih2 := ih f t (by simp at h ⊢; omega)
      simp only [List.map_cons] at ih2
      rw [ih2]
      rfl

/-- A rendered basic string is one whole TOML value. -/
theorem parseValue_emitStringL (s : String) :
    parseValue (emitStringL s) = some (TomlValue.str s, []) := by
  have h := parseScalarV_emitStringL s []
  rw [List.append_nil] at h
  have h2 : parseValue (emitStringL s) = parseScalarV (emitStringL s) := rfl
  exact h2.trans h

/-- A rendered string array is one whole TOML value. -/
theorem parseValue_emitFlagsL (xs : List String) :
    parseValue (emitFlagsL xs) = some (TomlValue.arr (xs.map TomlValue.str), []) := by
  have hl := joinComma_emit_length xs
  have h := parseElems_emit xs
    ((joinComma (xs.map emitStringL) ++ [']']).length + 1) []
    (by simp only [List.length_append, List.length_cons, List.length_nil]; omega)
  have h2 : parseValue (emitFlagsL xs) =
      (parseElems ((joinComma (xs.map emitStringL) ++ [']']).length + 1)
        (joinComma (xs.map emitStringL) ++ [']'])).map
        (fun p => (TomlValue.arr p.1, p.2)) := rfl
  rw [h2, h]
  rfl

/-- The boolean word `true` is one whole TOML value. -/
theorem parseValue_true : parseValue ("true".data) = some (TomlValue.bool true, []) := rfl

/-- The boolean word `false` is one whole TOML value. -/
theorem parseValue_false : parseValue ("false".data) = some (TomlValue.bool false, []) := rfl

/-- Reading a well-formed `key = value` line, given its pieces: the line has
no leading blanks, is not a comment, its key runs up to the ` = `, and its
value fills the rest of the line. -/
theorem parseLine_build (l : List Char) (key : List Char) (E : List Char)
    (v : TomlValue)
    (hskip : skipSpaces l = l)
    (hemp : l.isEmpty = false)
    (hhd : ¬ l.head? = some '#')
    (htW : l.takeWhile isKeyChar = key)
    (hkey : key.isEmpty = false)
    (hdW : l.dropWhile isKeyChar = ' ' :: '=' :: ' ' :: E)
    (hE : skipSpaces E = E)
    (hV : parseValue E = some (v, [])) :
    parseLine l = some (some (String.mk key, v)) := by
  have h1 : skipSpaces ('=' :: ' ' :: E) = '=' :: ' ' :: E :=
    skipSpaces_cons_of _ _ (by decide)
  unfold parseLine
  simp only [hskip, hemp, hhd, htW, hkey, hdW, skipSpaces_space, h1, hE,
    List.head?_cons, List.tail_cons, Option.some.injEq, reduceCtorEq,
    Bool.false_eq_true, if_false, ite_false, ite_true, if_true]
  simp [hV, finishVal, skipSpaces_nil]

/-- Hex digit characters are never a newline. -/
theorem hexDigitChar_ne_newline : ∀ n < 16, ¬('\n' = hexDigitChar n) := by
  decide

/-- Escaping a character never emits a raw newline (a newline itself becomes
`\n`). -/
theorem newline_not_mem_escapeChar (c : Char) : '\n' ∉ escapeChar c := by
  unfold escapeChar
  split_ifs with h1 h2 h3 h4 h5 h6 h7 h8
  · decide
  · decide
  · decide
  · decide
  · decide
  · decide
  · decide
  · simp only [hex4, List.mem_cons, List.not_mem_nil, or_false]
    push_neg
    refine ⟨by decide, by decide, ?_, ?_, ?_, ?_⟩ <;>
      exact hexDigitChar_ne_newline _ (by omega)
  · simp only [List.mem_singleton]
    intro he
    subst he
    simp [isCtl] at h8

/-- An escaped string body contains no raw newline. -/
theorem newline_not_mem_escList (xs : List Char) : '\n' ∉ escList xs := by
  induction xs with
  | nil => simp [escList]
  | cons c cs ih =>
    rw [escList]
    simp only [List.mem_append]
    rintro (h | h)
    · exact newline_not_mem_escapeChar c h
    · exact ih h

/-- A rendered basic string contains no raw newline. -/
theorem newline_not_mem_emitStringL (s : String) : '\n' ∉ emitStringL s := by
  rw [emitStringL]
  simp only [List.mem_cons, List.mem_append, List.mem_singleton]
  rintro (h | h | h)
  · exact absurd h (by decide)
  · exact newline_not_mem_escList s.data h
  · exact absurd h (by decide)

/-- A rendered element list contains no raw newline. -/
theorem newline_not_mem_joinComma (xs : List String) :
    '\n' ∉ joinComma (xs.map emitStringL) := by
  induction xs with
  | nil => simp [joinComma]
  | cons x xs ih =>
    cases xs with
    | nil =>
      simp only [List.map_cons, List.map_nil, joinComma]
      exact newline_not_mem_emitStringL x
    | cons y ys =>
      simp only [List.map_cons, joinComma] at ih ⊢
      simp only [List.mem_append, List.mem_cons]
      rintro (h | h | h | h)
      · exact newline_not_mem_emitStringL x h
      · exact absurd h (by decide)
      · exact absurd h (by decide)
      · exact ih h

/-- A rendered string array contains no raw newline. -/
theorem newline_not_mem_emitFlagsL (xs : List String) :
    '\n' ∉ emitFlagsL xs := by
  rw [emitFlagsL]
  simp only [List.mem_cons, List.mem_append, List.mem_singleton]
  rintro (h | h | h)
  · exact absurd h (by decide)
  · exact newline_not_mem_joinComma xs h
  · exact absurd h (by decide)

/-- Splitting at the first newline after a newline-free prefix. -/
theorem splitLines_append (l rest : List Char) (h : '\n' ∉ l) :
    splitLines (l ++ '\n' :: rest) = l :: splitLines rest := by
  induction l with
  | nil =>
    rw [List.nil_append, splitLines.eq_def]
    simp
  | cons c l ih =>
    simp only [List.mem_cons, not_or] at h
    have hc : ¬ c = '\n' := fun he => h.1 he.symm
    rw [List.cons_append, splitLines.eq_def]
    simp only [if_neg hc]
    rw [ih h.2]

/-- serde reads back a list of string values elementwise. -/
theorem strListOfToml_map (xs : List String) :
    strListOfToml (xs.map TomlValue.str) = some xs := by
  induction xs with
  | nil => rfl
  | cons x xs ih => simp [strListOfToml, ih]

/-- Reading the serialized `compiler` line. -/
theorem parseLine_compiler (s : String) :
    parseLine ("compiler = ".data ++ emitStringL s) =
      some (some ("compiler", TomlValue.str s)) := by
  have hhd : ¬("compiler = ".data ++ emitStringL s).head? = some '#' := by
    rw [show ("compiler = ".data ++ emitStringL s).head? = some 'c' from rfl]
    decide
  exact parseLine_build ("compiler = ".data ++ emitStringL s) "compiler".data
    (emitStringL s) (TomlValue.str s)
    (skipSpaces_cons_of 'c' _ (by decide)) rfl hhd rfl rfl rfl
    (skipSpaces_cons_of '"' _ (by decide)) (parseValue_emitStringL s)

/-- Reading the serialized `proj_name` line. -/
theorem parseLine_proj_name (s : String) :
    parseLine ("proj_name = ".data ++ emitStringL s) =
      some (some ("proj_name", TomlValue.str s)) := by
  have hhd : ¬("proj_name = ".data ++ emitStringL s).head? = some '#' := by
    rw [show ("proj_name = ".data ++ emitStringL s).head? = some 'p' from rfl]
    decide
  exact parseLine_build ("proj_name = ".data ++ emitStringL s) "proj_name".data
    (emitStringL s) (TomlValue.str s)
    (skipSpaces_cons_of 'p' _ (by decide)) rfl hhd rfl rfl rfl
    (skipSpaces_cons_of '"' _ (by decide)) (parseValue_emitStringL s)

/-- Reading the serialized `flags` line. -/
theorem parseLine_flags (xs : List String) :
    parseLine ("flags = ".data ++ emitFlagsL xs) =
      some (some ("flags", TomlValue.arr (xs.map TomlValue.str))) := by
  have hhd : ¬("flags = ".data ++ emitFlagsL xs).head? = some '#' := by
    rw [show ("flags = ".data ++ emitFlagsL xs).head? = some 'f' from rfl]
    decide
  exact parseLine_build ("flags = ".data ++ emitFlagsL xs) "flags".data
    (emitFlagsL xs) (TomlValue.arr (xs.map TomlValue.str))
    (skipSpaces_cons_of 'f' _ (by decide)) rfl hhd rfl rfl rfl
    (skipSpaces_cons_of '[' _ (by decide)) (parseValue_emitFlagsL xs)

/-- Reading the serialized `clean` line. -/
theorem parseLine_clean (b : Bool) :
    parseLine ("clean = ".data ++ (if b then "true".data else "false".data)) =
      some (some ("clean", TomlValue.bool b)) := by
  cases b
  · exact parseLine_build ("clean = ".data ++ "false".data) "clean".data
      ("false".data) (TomlValue.bool false)
      (skipSpaces_cons_of 'c' _ (by decide)) rfl (by decide) rfl rfl rfl
      (skipSpaces_cons_of 'f' _ (by decide)) parseValue_false
  · exact parseLine_build ("clean = ".data ++ "true".data) "clean".data
      ("true".data) (TomlValue.bool true)
      (skipSpaces_cons_of 'c' _ (by decide)) rfl (by decide) rfl rfl rfl
      (skipSpaces_cons_of 't' _ (by decide)) parseValue_true

/-- Reading the serialized `mode` line. -/
theorem parseLine_mode (m : CompilerMode) :
    parseLine ("mode = ".data ++ emitStringL m.tag) =
      some (some ("mode", TomlValue.str m.tag)) := by
  have hhd : ¬("mode = ".data ++ emitStringL m.tag).head? = some '#' := by
    rw [show ("mode = ".data ++ emitStringL m.tag).head? = some 'm' from rfl]
    decide
  exact parseLine_build ("mode = ".data ++ emitStringL m.tag) "mode".data
    (emitStringL m.tag) (TomlValue.str m.tag)
    (skipSpaces_cons_of 'm' _ (by decide)) rfl hhd rfl rfl rfl
    (skipSpaces_cons_of '"' _ (by decide)) (parseValue_emitStringL m.tag)

/-- The serialized text splits into its five lines plus the empty line after
the final newline. -/
theorem splitLines_serializedFormL (comp pn : String) (fl : List String)
    (cl : Bool) (mo : CompilerMode) :
    splitLines (serializedFormL ⟨comp, pn, fl, cl, mo⟩) =
      ["compiler = ".data ++ emitStringL comp,
        "proj_name = ".data ++ emitStringL pn,
        "flags = ".data ++ emitFlagsL fl,
        "clean = ".data ++ (if cl then "true".data else "false".data),
        "mode = ".data ++ emitStringL mo.tag, []] := by
  have hno1 : '\n' ∉ "compiler = ".data ++ emitStringL comp := by
    simp only [List.mem_append]
    rintro (h | h)
    · exact absurd h (by decide)
    · exact newline_not_mem_emitStringL comp h
  have hno2 : '\n' ∉ "proj_name = ".data ++ emitStringL pn := by
    simp only [List.mem_append]
    rintro (h | h)
    · exact absurd h (by decide)
    · exact newline_not_mem_emitStringL pn h
  have hno3 : '\n' ∉ "flags = ".data ++ emitFlagsL fl := by
    simp only [List.mem_append]
    rintro (h | h)
    · exact absurd h (by decide)
    · exact newline_not_mem_emitFlagsL fl h
  have hno4 : '\n' ∉ "clean = ".data ++ (if cl then "true".data else "false".data) := by
    cases cl <;> decide
  have hno5 : '\n' ∉ "mode = ".data ++ emitStringL mo.tag := by
    simp only [List.mem_append]
    rintro (h | h)
    · exact absurd h (by decide)
    · exact newline_not_mem_emitStringL mo.tag h
  have h1 : splitLines (serializedFormL ⟨comp, pn, fl, cl, mo⟩) =
      ("compiler = ".data ++ emitStringL comp) ::
        splitLines ("proj_name = ".data ++ (emitStringL pn ++ '\n' ::
          ("flags = ".data ++ (emitFlagsL fl ++ '\n' ::
            ("clean = ".data ++ ((if cl then "true".data else "false".data) ++ '\n' ::
              ("mode = ".data ++ (emitStringL mo.tag ++ ['\n'])))))))) :=
    splitLines_append _ _ hno1
  rw [h1]
  have h2 : splitLines ("proj_name = ".data ++ (emitStringL pn ++ '\n' ::
      ("flags = ".data ++ (emitFlagsL fl ++ '\n' ::
        ("clean = ".data ++ ((if cl then "true".data else "false".data) ++ '\n' ::
          ("mode = ".data ++ (emitStringL mo.tag ++ ['\n'])))))))) =
      ("proj_name = ".data ++ emitStringL pn) ::
        splitLines ("flags = ".data ++ (emitFlagsL fl ++ '\n' ::
          ("clean = ".data ++ ((if cl then "true".data else "false".data) ++ '\n' ::
            ("mode = ".data ++ (emitStringL mo.tag ++ ['\n'])))))) :=
    splitLines_append _ _ hno2
  rw [h2]
  have h3 : splitLines ("flags = ".data ++ (emitFlagsL fl ++ '\n' ::
      ("clean = ".data ++ ((if cl then "true".data else "false".data) ++ '\n' ::
        ("mode = ".data ++ (emitStringL mo.tag ++ ['\n'])))))) =
      ("flags = ".data ++ emitFlagsL fl) ::
        splitLines ("clean = ".data ++ ((if cl then "true".data else "false".data) ++ '\n' ::
          ("mode = ".data ++ (emitStringL mo.tag ++ ['\n'])))) :=
    splitLines_append _ _ hno3
  rw [h3]
  have h4 : splitLines ("clean = ".data ++ ((if cl then "true".data else "false".data) ++ '\n' ::
      ("mode = ".data ++ (emitStringL mo.tag ++ ['\n'])))) =
      ("clean = ".data ++ (if cl then "true".data else "false".data)) ::
        splitLines ("mode = ".data ++ (emitStringL mo.tag ++ ['\n'])) :=
    splitLines_append _ _ hno4
  rw [h4]
  have h5 : splitLines ("mode = ".data ++ (emitStringL mo.tag ++ ['\n'])) =
      ("mode = ".data ++ emitStringL mo.tag) :: splitLines [] :=
    splitLines_append _ _ hno5
  rw [h5]
  rfl

/-- Parsing inverts serialization: the central round-trip fact, at the level
of the rendered closed form. -/
theorem parseCompiler_serializedFormL (c : Compiler) :
    parseCompiler (String.mk (serializedFormL c)) = some c := by
  obtain ⟨comp, pn, fl, cl, mo⟩ := c
  show parseLinesGo (splitLines (serializedFormL ⟨comp, pn, fl, cl, mo⟩)) {} = _
  rw [splitLines_serializedFormL]
  rw [parseLinesGo, parseLine_compiler]
  show parseLinesGo _ ⟨some comp, none, none, none, none⟩ = _
  rw [parseLinesGo, parseLine_proj_name]
  show parseLinesGo _ ⟨some comp, some pn, none, none, none⟩ = _
  rw [parseLinesGo, parseLine_flags]
  show (match updatePart ⟨some comp, some pn, none, none, none⟩ "flags"
      (TomlValue.arr (fl.map TomlValue.str)) with
    | none => none
    | some p2 => parseLinesGo _ p2) = _
  rw [show updatePart ⟨some comp, some pn, none, none, none⟩ "flags"
      (TomlValue.arr (fl.map TomlValue.str)) =
      (strListOfToml (fl.map TomlValue.str)).map
        (fun l => ⟨some comp, some pn, some l, none, none⟩) from rfl]
  rw [strListOfToml_map]
  show parseLinesGo _ ⟨some comp, some pn, some fl, none, none⟩ = _
  rw [parseLinesGo, parseLine_clean]
  show parseLinesGo _ ⟨some comp, some pn, some fl, some cl, none⟩ = _
  rw [parseLinesGo, parseLine_mode]
  cases mo <;> rfl

/-! ## `from_file`, `create_file`, and the persistence claims -/

/-- The fixed file name `Compiler::from_file` reads: `compiler.toml` in the
current working directory. -/
def compilerTomlPath : String := "compiler.toml"

/-- Embeds `Compiler::from_file` against an explicit read-only file system
(`fs` maps a path to the outcome of `read_to_string`).  The `?` on
`read_to_string` returns the I/O error; the `unwrap` on `from_str` panics on
a parse error. -/
def Compiler.from_file (fs : String → Except IoErr String) :
    PanicOr (Except IoErr Compiler) :=
  match fs compilerTomlPath with
  | Except.error e => PanicOr.ret (Except.error e)
  | Except.ok s =>
    match parseCompiler s with
    | some c => PanicOr.ret (Except.ok c)
    | none => PanicOr.panicked "called Result::unwrap on an Err value"

/-- The path `Compiler::create_file` writes to:
`PathBuf::from(&self.proj_name).join("compiler.toml")`. -/
def Compiler.create_file_target (c : Compiler) : String :=
  pathJoin c.proj_name "compiler.toml"

/-- Embeds `Compiler::create_file` up to the file-system write: the target
path and the bytes written there (a panic in `to_string` would propagate). -/
def Compiler.create_file (c : Compiler) : PanicOr (String × String) :=
  match c.to_string with
  | PanicOr.ret s => PanicOr.ret (c.create_file_target, s)
  | PanicOr.panicked m => PanicOr.panicked m

/-- Claim C2: serializing any configuration and parsing the text back (with
the parse `from_file` uses) returns a configuration equal to the original in
all five fields — serialize followed by parse is lossless. -/
theorem claim_C2_roundtrip (c : Compiler) :
    ∃ s : String, c.to_string = PanicOr.ret s ∧ parseCompiler s = some c := by
  refine ⟨String.mk (serializedFormL c), ?_, parseCompiler_serializedFormL c⟩
  simp [Compiler.to_string, Compiler.to_string_checked, renderDocL_encodeCompiler]

/-- A document whose `mode` value is not a variant name. -/
def badModeDoc : String :=
  "compiler = \"pdflatex\"\nproj_name = \"report\"\nflags = []\nclean = true\nmode = \"Fast\"\n"

/-- Claim C3 counterexample: on a document whose only flaw is the
unrecognized `mode` value `"Fast"`, the parse fails (no silent default), but
`from_file` does not surface it as a returned error — it panics, so the
parse-failure kind is not \"distinguishable to the caller as returned
errors\" as the claim states. -/
theorem claim_C3_counterexample :
    parseCompiler badModeDoc = none ∧
    Compiler.from_file (fun _ => Except.ok badModeDoc) =
      PanicOr.panicked "called Result::unwrap on an Err value" ∧
    (Compiler.from_file (fun _ => Except.ok badModeDoc)).isRet = false := by
  refine ⟨?_, ?_, ?_⟩ <;> rfl

/-- Claim C3 (amended): `from_file` returns the I/O error when the read
fails; on content that does not parse (e.g. an unrecognized `mode` value) it
panics via `unwrap` instead of returning a parse error — never a silent
default; and it returns the configuration when the content parses.  The two
failure kinds are thus distinguished as a returned `Err` versus a panic, not
as two returned errors. -/
theorem claim_C3_io_error_returned_parse_error_panics :
    (∀ (e : IoErr) (fs : String → Except IoErr String),
      fs compilerTomlPath = Except.error e →
      Compiler.from_file fs = PanicOr.ret (Except.error e)) ∧
    (∀ (fs : String → Except IoErr String) (s : String),
      fs compilerTomlPath = Except.ok s → parseCompiler s = none →
      Compiler.from_file fs =
        PanicOr.panicked "called Result::unwrap on an Err value") ∧
    (∀ (fs : String → Except IoErr String) (s : String) (c : Compiler),
      fs compilerTomlPath = Except.ok s → parseCompiler s = some c →
      Compiler.from_file fs = PanicOr.ret (Except.ok c)) := by
  refine ⟨?_, ?_, ?_⟩
  · intro e fs h
    unfold Compiler.from_file
    rw [h]
  · intro fs s h hp
    unfold Compiler.from_file
    rw [h]
    show (match parseCompiler s with
      | some c => PanicOr.ret (Except.ok c)
      | none => PanicOr.panicked "called Result::unwrap on an Err value") = _
    rw [hp]
  · intro fs s c h hp
    unfold Compiler.from_file
    rw [h]
    show (match parseCompiler s with
      | some c => PanicOr.ret (Except.ok c)
      | none => PanicOr.panicked "called Result::unwrap on an Err value") = _
    rw [hp]

/-- Claim C3 amended-theorem witness: the parse-failure clause instantiated
at the unrecognized-`mode` document. -/
theorem claim_C3_io_error_returned_parse_error_panics_witness :
    Compiler.from_file (fun _ => Except.ok badModeDoc) =
      PanicOr.panicked "called Result::unwrap on an Err value" :=
  claim_C3_io_error_returned_parse_error_panics.2.1
    (fun _ => Except.ok badModeDoc) badModeDoc rfl (by rfl)

/-- Claim C7: `create_file` writes to `<proj_name>/compiler.toml` (exactly
`PathBuf::join` of the project name and the file name; literally
`proj_name ++ "/compiler.toml"` whenever the project name is a normal
segment, i.e. nonempty without a trailing separator), while `from_file`
reads `compiler.toml` in the current working directory: the write path
depends on `proj_name`, the read path does not depend on the configuration
at all — `from_file` is a function of the file system's content at the one
fixed path `"compiler.toml"`. -/
theorem claim_C7_path_asymmetry :
    (∀ c : Compiler, c.create_file_target = pathJoin c.proj_name "compiler.toml") ∧
    (∀ c : Compiler, c.proj_name ≠ "" →
      c.proj_name.data.getLast? ≠ some '/' →
      c.create_file_target = c.proj_name ++ "/compiler.toml") ∧
    (∀ fs fs' : String → Except IoErr String,
      fs compilerTomlPath = fs' compilerTomlPath →
      Compiler.from_file fs = Compiler.from_file fs') ∧
    compilerTomlPath = "compiler.toml" ∧
    (Compiler.new "a").create_file_target ≠ (Compiler.new "b").create_file_target := by
  refine ⟨fun _ => rfl, ?_, ?_, rfl, by decide⟩
  · intro c h1 h2
    unfold Compiler.create_file_target pathJoin
    rw [if_neg h1, if_neg h2]
    have : ("/" : String) ++ "compiler.toml" = "/compiler.toml" := rfl
    rw [String.append_assoc, this]
  · intro fs fs' h
    unfold Compiler.from_file
    rw [h]

/-- Claim C7 witness: the literal-path clause instantiated at the default
configuration for project `demo`. -/
theorem claim_C7_path_asymmetry_witness :
    (Compiler.new "demo").create_file_target =
      (Compiler.new "demo").proj_name ++ "/compiler.toml" :=
  claim_C7_path_asymmetry.2.1 (Compiler.new "demo") (by decide) (by decide)
